import Mathlib

/-!
Shallow embedding of the `card_deck` Python package.

The package (`src/card_deck`) consists of:
* `deck.py` — a `Card` NamedTuple with fields `rank, suit` (in that
  positional order) whose `__setattr__` always raises `AttributeError`,
  and a `Deck` class whose `__init__` fills an internal Python list
  `_cards` with the 52 suit-major cards, whose `cards` property returns
  a copy (`self._cards[:]`), and which defines `__len__` and `__str__`.
* `card.py` — a second, unexported `Card` NamedTuple with fields in the
  order `suit, rank`.
* `__init__.py` — `from .deck import Card, Deck`.

Python lists are mutable reference values, so the Deck state is modelled
with a small heap mapping addresses to card lists: `Deck.__init__`
allocates a fresh list and appends to it, the `cards` property allocates
a fresh list holding a copy of the internal one, and external mutation
of a returned list is an update of the heap at the returned address.
-/

namespace DeckPy

/-- Embedding of `Card` from `deck.py`: a NamedTuple with fields
`rank` then `suit`, both strings. -/
structure Card where
  rank : String
  suit : String
deriving DecidableEq, Repr

/-- The suit labels, in the order `deck.py` iterates them. -/
def suits : List String := ["Spades", "Hearts", "Diamonds", "Clubs"]

/-- The rank labels, in the order `deck.py` iterates them. -/
def ranks : List String :=
  ["A", "2", "3", "4", "5", "6", "7", "8", "9", "10", "J", "Q", "K"]

/-- The 52-card sequence produced by the nested loop in `Deck.__init__`:
for each suit, for each rank, one `Card(rank, suit)`, suit-major. -/
def standardCards : List Card :=
  suits.flatMap (fun suit => ranks.map (fun rank => Card.mk rank suit))

/-- A heap of Python list objects: contents of each address, plus the
next fresh address. -/
structure Heap where
  lists : Nat → List Card
  next : Nat

/-- Read the list stored at address `a`. -/
def Heap.get (h : Heap) (a : Nat) : List Card := h.lists a

/-- Allocate a fresh list object holding `xs`; returns its address. -/
def Heap.alloc (h : Heap) (xs : List Card) : Nat × Heap :=
  (h.next,
    { lists := fun b => if b = h.next then xs else h.lists b,
      next := h.next + 1 })

/-- Overwrite the list stored at address `a` (a Python in-place list
mutation of the object at `a`). -/
def Heap.set (h : Heap) (a : Nat) (xs : List Card) : Heap :=
  { lists := fun b => if b = a then xs else h.lists b, next := h.next }

/-- `lst.append(c)` on the list object at address `a`. -/
def Heap.appendCard (h : Heap) (a : Nat) (c : Card) : Heap :=
  h.set a (h.get a ++ [c])

/-- Embedding of the `Deck` object: it holds the address of its internal
`_cards` list. -/
structure Deck where
  cardsAddr : Nat

/-- `Deck.__init__`: allocate `self._cards = []`, then
`for suit in suits: for rank in ranks: self._cards.append(Card(rank, suit))`. -/
def Deck.new (h : Heap) : Deck × Heap :=
  let p := h.alloc []
  let h2 := suits.foldl
    (fun hh suit =>
      ranks.foldl (fun hh2 rank => hh2.appendCard p.1 (Card.mk rank suit)) hh)
    p.2
  (⟨p.1⟩, h2)

/-- The `cards` property: `return self._cards[:]` — allocate a fresh
list object holding a copy of the internal sequence, return its address. -/
def Deck.cards (d : Deck) (h : Heap) : Nat × Heap :=
  h.alloc (h.get d.cardsAddr)

/-- `Deck.__len__`: `return len(self._cards)`. -/
def Deck.len (d : Deck) (h : Heap) : Nat :=
  (h.get d.cardsAddr).length

/-- `Deck.__str__`: `return f"Deck with {len(self._cards)} cards"`. -/
def Deck.str (d : Deck) (h : Heap) : String :=
  "Deck with " ++ toString (h.get d.cardsAddr).length ++ " cards"

/-- The state of a constructed Deck: its internal list holds the
standard 52 cards and its address was allocated by the heap (is below
`next`). Established by `Deck.new` and preserved by every operation. -/
def DeckInv (d : Deck) (h : Heap) : Prop :=
  h.get d.cardsAddr = standardCards ∧ d.cardsAddr < h.next

instance (d : Deck) (h : Heap) : Decidable (DeckInv d h) := by
  unfold DeckInv; infer_instance

/-- A Python value passed as a constructor argument. -/
inductive PyVal where
  | str : String → PyVal
  | int : Int → PyVal
deriving DecidableEq, Repr

/-- The arity error Python raises for `Deck(...)` with arguments:
`__init__` is declared with only `self`. -/
def arityErr : String :=
  "TypeError: __init__() takes 1 positional argument but more were given"

/-- Calling `Deck(*args, **kwargs)`: `__init__(self) -> None` accepts no
positional and no keyword arguments, so any argument raises `TypeError`;
with no arguments construction proceeds. -/
def Deck.construct (args : List PyVal) (kwargs : List (String × PyVal))
    (h : Heap) : Except String (Deck × Heap) :=
  match args, kwargs with
  | [], [] => Except.ok (Deck.new h)
  | _, _ => Except.error arityErr

/-- Attribute assignment on a `deck.py` Card: `__setattr__` raises
`AttributeError(f"can't set attribute '{name}'")` for every attribute
name, before any field is touched, so the card is returned unchanged. -/
def Card.pySetattr (c : Card) (name : String) (v : PyVal) :
    Except String Unit × Card :=
  (Except.error ("AttributeError: can't set attribute '" ++ name ++ "'"), c)

/-- Attribute deletion on a Card. NamedTuple fields are read-only
properties of an immutable tuple, so `del c.rank` / `del c.suit` raises
`AttributeError: can't delete attribute` and the card is unchanged. -/
def Card.pyDelattr (c : Card) (name : String) :
    Except String Unit × Card :=
  (Except.error "AttributeError: can't delete attribute", c)

/-- NamedTuple equality: component-wise tuple equality on (rank, suit). -/
def Card.pyEq (c1 c2 : Card) : Bool :=
  c1.rank == c2.rank && c1.suit == c2.suit

/-- NamedTuple hashing: a function of the (rank, suit) tuple only. -/
def Card.pyHash (c : Card) : UInt64 :=
  mixHash (hash c.rank) (hash c.suit)

/-- Substring test used to state the `__str__` contract. -/
def strContains (s sub : String) : Bool :=
  decide (List.IsInfix sub.toList s.toList)

end DeckPy

namespace CardPy

/-- Embedding of `Card` from `card.py`: a NamedTuple with fields
`suit` then `rank` — the opposite positional order from `deck.py`. -/
structure Card where
  suit : String
  rank : String
deriving DecidableEq, Repr

end CardPy

namespace CardDeckPkg

/-- `__init__.py` re-exports the `deck.py` definition:
`from .deck import Card, Deck`. -/
def Card := DeckPy.Card

end CardDeckPkg

/-- Conversion witnessing that the two Card definitions agree only up to
swapping the positional fields. -/
def swapToAlt (c : DeckPy.Card) : CardPy.Card :=
  CardPy.Card.mk c.suit c.rank

namespace DeckPy

/-- Appending a list of cards one by one to the list object at `a`. -/
def appendAll (h : Heap) (a : Nat) (l : List Card) : Heap :=
  l.foldl (fun hh c => hh.appendCard a c) h

theorem alloc_fst (h : Heap) (xs : List Card) : (h.alloc xs).1 = h.next := rfl

theorem alloc_next (h : Heap) (xs : List Card) :
    (h.alloc xs).2.next = h.next + 1 := rfl

theorem alloc_get_same (h : Heap) (xs : List Card) :
    (h.alloc xs).2.get h.next = xs := by
  simp [Heap.alloc, Heap.get]

theorem alloc_get_ne (h : Heap) (xs : List Card) (b : Nat) (hb : b ≠ h.next) :
    (h.alloc xs).2.get b = h.get b := by
  simp [Heap.alloc, Heap.get, hb]

theorem set_next (h : Heap) (a : Nat) (xs : List Card) :
    (h.set a xs).next = h.next := rfl

theorem set_get_same (h : Heap) (a : Nat) (xs : List Card) :
    (h.set a xs).get a = xs := by
  simp [Heap.set, Heap.get]

theorem set_get_ne (h : Heap) (a : Nat) (xs : List Card) (b : Nat)
    (hb : b ≠ a) : (h.set a xs).get b = h.get b := by
  simp [Heap.set, Heap.get, hb]

theorem appendAll_next (h : Heap) (a : Nat) (l : List Card) :
    (appendAll h a l).next = h.next := by
  induction l generalizing h with
  | nil => rfl
  | cons c cs ih =>
    simpa [appendAll, Heap.appendCard, set_next] using
      ih (h.appendCard a c)

theorem appendAll_get_same (h : Heap) (a : Nat) (l : List Card) :
    (appendAll h a l).get a = h.get a ++ l := by
  induction l generalizing h with
  | nil => simp [appendAll]
  | cons c cs ih =>
    have step : appendAll h a (c :: cs) = appendAll (h.appendCard a c) a cs := rfl
    rw [step, ih, Heap.appendCard, set_get_same]
    simp

theorem appendAll_get_ne (h : Heap) (a : Nat) (l : List Card) (b : Nat)
    (hb : b ≠ a) : (appendAll h a l).get b = h.get b := by
  induction l generalizing h with
  | nil => rfl
  | cons c cs ih =>
    have step : appendAll h a (c :: cs) = appendAll (h.appendCard a c) a cs := rfl
    rw [step, ih, Heap.appendCard, set_get_ne _ _ _ _ hb]

/-- `Deck.__init__` is the allocation of a fresh empty list followed by
the 52 appends of the suit-major card sequence. -/
theorem deck_new_eq (h : Heap) :
    Deck.new h = (⟨h.next⟩, appendAll (h.alloc []).2 h.next standardCards) := rfl

theorem deck_new_addr (h : Heap) : (Deck.new h).1.cardsAddr = h.next := rfl

theorem deck_new_next (h : Heap) : (Deck.new h).2.next = h.next + 1 := by
  rw [deck_new_eq]
  simpa using appendAll_next (h.alloc []).2 h.next standardCards

theorem deck_new_get (h : Heap) :
    (Deck.new h).2.get (Deck.new h).1.cardsAddr = standardCards := by
  rw [deck_new_eq]
  show (appendAll (h.alloc []).2 h.next standardCards).get h.next = standardCards
  rw [appendAll_get_same, alloc_get_same]
  rfl

theorem deck_new_get_ne (h : Heap) (b : Nat) (hb : b ≠ h.next) :
    (Deck.new h).2.get b = h.get b := by
  rw [deck_new_eq]
  show (appendAll (h.alloc []).2 h.next standardCards).get b = h.get b
  rw [appendAll_get_ne _ _ _ _ hb, alloc_get_ne _ _ _ hb]

theorem deck_new_inv (h : Heap) : DeckInv (Deck.new h).1 (Deck.new h).2 :=
  ⟨deck_new_get h, by rw [deck_new_addr, deck_new_next]; omega⟩

end DeckPy

open DeckPy in
/-- C1: every constructed Deck has length 52, pairwise-distinct
(rank, suit) cards, exactly 13 cards per suit and 4 per rank; Deck
construction establishes this state and the `cards` operation (the only
operation returning a new heap — `__len__` and `__str__` read only)
preserves it, so no operation changes these counts. -/
theorem c1_deck_counts (d : Deck) (h : Heap) (hinv : DeckInv d h) :
    Deck.len d h = 52 ∧
    (h.get d.cardsAddr).Nodup ∧
    (∀ s ∈ suits, ((h.get d.cardsAddr).filter (fun c => c.suit == s)).length = 13) ∧
    (∀ r ∈ ranks, ((h.get d.cardsAddr).filter (fun c => c.rank == r)).length = 4) ∧
    DeckInv (Deck.new h).1 (Deck.new h).2 ∧
    DeckInv d (Deck.cards d h).2 := by
  obtain ⟨hget, hlt⟩ := hinv
  refine ⟨?_, ?_, ?_, ?_, deck_new_inv h, ?_⟩
  · show (h.get d.cardsAddr).length = 52
    rw [hget]; decide
  · rw [hget]; decide
  · rw [hget]; decide
  · rw [hget]; decide
  · refine ⟨?_, ?_⟩
    · show (h.alloc (h.get d.cardsAddr)).2.get d.cardsAddr = standardCards
      rw [alloc_get_ne _ _ _ (by omega), hget]
    · show d.cardsAddr < (h.alloc (h.get d.cardsAddr)).2.next
      rw [alloc_next]; omega

open DeckPy in
/-- C1 witness: the invariant hypothesis holds for a deck freshly
constructed in the empty heap, and there the length is 52. -/
theorem c1_deck_counts_witness :
    DeckInv (Deck.new ⟨fun _ => [], 0⟩).1 (Deck.new ⟨fun _ => [], 0⟩).2 ∧
    Deck.len (Deck.new ⟨fun _ => [], 0⟩).1 (Deck.new ⟨fun _ => [], 0⟩).2 = 52 :=
  ⟨deck_new_inv ⟨fun _ => [], 0⟩,
   (c1_deck_counts _ _ (deck_new_inv ⟨fun _ => [], 0⟩)).1⟩

open DeckPy in
/-- C2: the internal sequence of a constructed Deck is exactly the
suit-major enumeration (all 13 ranks of Spades, then Hearts, then
Diamonds, then Clubs, ranks in order A..K), with the concrete positions
0, 12, 13 and 51 (the last) as the spec's scenario states. -/
theorem c2_suit_major_order (h : Heap) :
    (Deck.new h).2.get (Deck.new h).1.cardsAddr =
      suits.flatMap (fun suit => ranks.map (fun rank => Card.mk rank suit)) ∧
    standardCards.get? 0 = some (Card.mk "A" "Spades") ∧
    standardCards.get? 12 = some (Card.mk "K" "Spades") ∧
    standardCards.get? 13 = some (Card.mk "A" "Hearts") ∧
    standardCards.get? 51 = some (Card.mk "K" "Clubs") ∧
    standardCards.getLast? = some (Card.mk "K" "Clubs") :=
  ⟨deck_new_get h, by decide, by decide, by decide, by decide, by decide⟩

open DeckPy in
/-- C3: the `cards` accessor allocates a fresh list (its address differs
from the internal list's and from every previously returned copy's)
holding the same 52 cards in the same order, and an arbitrary mutation
`m` of the returned list leaves the Deck's internal sequence, its
length, and the earlier returned copy unchanged. -/
theorem c3_defensive_copy (h : Heap) (m : List Card → List Card) :
    let dh := Deck.new h
    let p1 := Deck.cards dh.1 dh.2
    let p2 := Deck.cards dh.1 p1.2
    let h3 := p2.2.set p2.1 (m (p2.2.get p2.1))
    p2.2.get p2.1 = p1.2.get dh.1.cardsAddr ∧
    p2.1 ≠ dh.1.cardsAddr ∧
    p2.1 ≠ p1.1 ∧
    h3.get dh.1.cardsAddr = dh.2.get dh.1.cardsAddr ∧
    Deck.len dh.1 h3 = 52 ∧
    h3.get p1.1 = p1.2.get p1.1 := by
  intro dh p1 p2 h3
  have haddr : dh.1.cardsAddr = h.next := deck_new_addr h
  have hnext : dh.2.next = h.next + 1 := deck_new_next h
  have hget : dh.2.get dh.1.cardsAddr = standardCards := deck_new_get h
  have hp1fst : p1.1 = h.next + 1 := by
    show (dh.2.alloc (dh.2.get dh.1.cardsAddr)).1 = h.next + 1
    rw [alloc_fst, hnext]
  have hp1next : p1.2.next = h.next + 2 := by
    show (dh.2.alloc (dh.2.get dh.1.cardsAddr)).2.next = h.next + 2
    rw [alloc_next, hnext]
  have hp1get : p1.2.get dh.1.cardsAddr = standardCards := by
    show (dh.2.alloc (dh.2.get dh.1.cardsAddr)).2.get dh.1.cardsAddr = standardCards
    rw [haddr, alloc_get_ne _ _ _ (by omega), ← haddr, hget]
  have hp1copy : p1.2.get p1.1 = standardCards := by
    show (dh.2.alloc (dh.2.get dh.1.cardsAddr)).2.get p1.1 = standardCards
    rw [hp1fst, ← hnext, alloc_get_same, hget]
  have hp2fst : p2.1 = h.next + 2 := by
    show (p1.2.alloc (p1.2.get dh.1.cardsAddr)).1 = h.next + 2
    rw [alloc_fst, hp1next]
  have hp2get : p2.2.get p2.1 = standardCards := by
    show (p1.2.alloc (p1.2.get dh.1.cardsAddr)).2.get p2.1 = standardCards
    rw [hp2fst, ← hp1next, alloc_get_same, hp1get]
  have hp2int : p2.2.get dh.1.cardsAddr = standardCards := by
    show (p1.2.alloc (p1.2.get dh.1.cardsAddr)).2.get dh.1.cardsAddr = standardCards
    rw [haddr, alloc_get_ne _ _ _ (by omega), ← haddr, hp1get]
  have hp2copy1 : p2.2.get p1.1 = standardCards := by
    show (p1.2.alloc (p1.2.get dh.1.cardsAddr)).2.get p1.1 = standardCards
    rw [hp1fst, alloc_get_ne _ _ _ (by omega), ← hp1fst, hp1copy]
  refine ⟨by rw [hp2get, hp1get], by omega, by omega, ?_, ?_, ?_⟩
  · rw [hget]
    show (p2.2.set p2.1 (m (p2.2.get p2.1))).get dh.1.cardsAddr = standardCards
    rw [set_get_ne _ _ _ _ (by omega), hp2int]
  · show (h3.get dh.1.cardsAddr).length = 52
    have : h3.get dh.1.cardsAddr = standardCards := by
      show (p2.2.set p2.1 (m (p2.2.get p2.1))).get dh.1.cardsAddr = standardCards
      rw [set_get_ne _ _ _ _ (by omega), hp2int]
    rw [this]; decide
  · show (p2.2.set p2.1 (m (p2.2.get p2.1))).get p1.1 = p1.2.get p1.1
    rw [set_get_ne _ _ _ _ (by omega), hp2copy1, hp1copy]

open DeckPy in
/-- C4: for every Card, every attribute name and value, attribute
assignment raises `AttributeError` (so does deleting a field), and the
card's rank and suit are unchanged afterwards. -/
theorem c4_card_immutable (c : Card) (name : String) (v : PyVal) :
    (c.pySetattr name v).1 =
      Except.error ("AttributeError: can't set attribute '" ++ name ++ "'") ∧
    (c.pySetattr name v).2.rank = c.rank ∧
    (c.pySetattr name v).2.suit = c.suit ∧
    (c.pyDelattr name).1 = Except.error "AttributeError: can't delete attribute" ∧
    (c.pyDelattr name).2.rank = c.rank ∧
    (c.pyDelattr name).2.suit = c.suit :=
  ⟨rfl, rfl, rfl, rfl, rfl, rfl⟩

open DeckPy in
/-- C5: constructing a Deck with any positional or keyword argument
raises the arity `TypeError`; the zero-argument construction succeeds. -/
theorem c5_construct_arity (args : List PyVal) (kwargs : List (String × PyVal))
    (h : Heap) (hne : args ≠ [] ∨ kwargs ≠ []) :
    Deck.construct args kwargs h = Except.error arityErr ∧
    Deck.construct [] [] h = Except.ok (Deck.new h) := by
  refine ⟨?_, rfl⟩
  match args, kwargs with
  | [], [] => simp at hne
  | a :: as, _ => rfl
  | [], k :: ks => rfl

open DeckPy in
/-- C5 witness: `Deck("x")` raises the arity error. -/
theorem c5_construct_arity_witness :
    ([PyVal.str "x"] ≠ ([] : List PyVal) ∨
      ([] : List (String × PyVal)) ≠ []) ∧
    Deck.construct [PyVal.str "x"] [] ⟨fun _ => [], 0⟩ =
      Except.error arityErr :=
  ⟨Or.inl (by simp),
   (c5_construct_arity [PyVal.str "x"] [] ⟨fun _ => [], 0⟩
      (Or.inl (by simp))).1⟩

open DeckPy in
/-- C6: `Card(r, s)` succeeds for all strings with no validation, and
the result has rank `r` and suit `s`. -/
theorem c6_card_fields (r s : String) :
    (Card.mk r s).rank = r ∧ (Card.mk r s).suit = s :=
  ⟨rfl, rfl⟩

open DeckPy in
/-- C7: Card equality is structural — two Cards are equal exactly when
their ranks and suits match — and the hash is consistent with it: equal
Cards hash equally. -/
theorem c7_card_eq_hash (c1 c2 : Card) :
    (Card.pyEq c1 c2 = true ↔ c1.rank = c2.rank ∧ c1.suit = c2.suit) ∧
    (Card.pyEq c1 c2 = true → Card.pyHash c1 = Card.pyHash c2) := by
  constructor
  · simp [Card.pyEq]
  · intro hEq
    have h2 : c1.rank = c2.rank ∧ c1.suit = c2.suit := by
      simpa [Card.pyEq] using hEq
    simp [Card.pyHash, h2.1, h2.2]

open DeckPy in
/-- C7 witness: two distinct constructions of the ace of spades compare
equal and hash equal. -/
theorem c7_card_eq_hash_witness :
    Card.pyEq (Card.mk "A" "Spades") (Card.mk "A" "Spades") = true ∧
    Card.pyHash (Card.mk "A" "Spades") = Card.pyHash (Card.mk "A" "Spades") :=
  ⟨by decide,
   (c7_card_eq_hash (Card.mk "A" "Spades") (Card.mk "A" "Spades")).2 (by decide)⟩

open DeckPy in
/-- C8: Deck construction is deterministic — two Decks constructed in
any two heaps hold the identical card sequence. -/
theorem c8_deterministic (h1 h2 : Heap) :
    (Deck.new h1).2.get (Deck.new h1).1.cardsAddr =
      (Deck.new h2).2.get (Deck.new h2).1.cardsAddr := by
  rw [deck_new_get, deck_new_get]

open DeckPy in
/-- C9: the textual representation of a constructed Deck is non-empty
and contains a count indicator ("52", "card" or "deck"). -/
theorem c9_str_count (h : Heap) :
    Deck.str (Deck.new h).1 (Deck.new h).2 ≠ "" ∧
    (strContains (Deck.str (Deck.new h).1 (Deck.new h).2) "52" = true ∨
     strContains (Deck.str (Deck.new h).1 (Deck.new h).2) "card" = true ∨
     strContains (Deck.str (Deck.new h).1 (Deck.new h).2) "deck" = true) := by
  have hs : Deck.str (Deck.new h).1 (Deck.new h).2 = "Deck with 52 cards" := by
    show "Deck with " ++ toString
        ((Deck.new h).2.get (Deck.new h).1.cardsAddr).length ++ " cards" =
      "Deck with 52 cards"
    rw [deck_new_get]
    rfl
  rw [hs]
  exact ⟨by decide, Or.inl (by decide)⟩

/-- C10: the two duplicate Card definitions disagree on positional field
order — `deck.py`'s Card built positionally from (a, b) has rank a and
suit b, while `card.py`'s Card built from (a, b) has suit a and rank b;
they agree only up to swapping the positional arguments, and the
package exports the `deck.py` definition. -/
theorem c10_duplicate_card_defs (a b : String) :
    (DeckPy.Card.mk a b).rank = a ∧
    (DeckPy.Card.mk a b).suit = b ∧
    (CardPy.Card.mk a b).suit = a ∧
    (CardPy.Card.mk a b).rank = b ∧
    swapToAlt (DeckPy.Card.mk a b) = CardPy.Card.mk b a ∧
    CardDeckPkg.Card = DeckPy.Card :=
  ⟨rfl, rfl, rfl, rfl, rfl, rfl⟩
